import Mathlib

/-!
Shallow embedding of the go-bank authenticated account-access subsystem
(api.go, types.go, main.go) and proofs of its specified properties.

Conventions of the embedding:
* Go `int` / `int64` become `Int`; timestamps become `Int` (Unix seconds).
* The JWT library (github.com/golang-jwt/jwt/v4) is modelled symbolically:
  a token string is either unparseable (`malformed`) or a structured token
  carrying an algorithm, a decoded claim set and a signature term; an HMAC
  signature is the formal term `hmacSign alg key claims`, compared
  structurally (perfect-MAC / Dolev-Yao style).
* bcrypt (golang.org/x/crypto/bcrypt) is an external library not present in
  the repository; it is modelled from the spec's Credential Hasher contract
  (salted one-way hash; verify recomputes and compares, returning a plain
  boolean).
* The Postgres store is not present under the repository sources; it is
  modelled from the spec's Account Store contract (keyed record storage).
* Effects (random account number, bcrypt salt, clock, signing secret from
  the environment) are passed explicitly in an `Env` record.
-/

namespace GoBank

/-- A decoded JSON value as it appears in a JWT claim set after parsing
(Go decodes all JSON numbers in claims as `float64`; the service only ever
stores integral values, so numbers are modelled as `Int`). -/
inductive JSONVal where
  | num (n : Int)
  | str (s : String)
  | boolean (b : Bool)
  | null
deriving DecidableEq, Repr

/-- A decoded JSON object: an association list of fields. -/
abbrev JSONObj := List (String × JSONVal)

/-- Claim-set lookup, `claims["k"]` on a Go map modelled as an association
list (the service never stores duplicate keys). -/
def lookupClaim (claims : JSONObj) (k : String) : Option JSONVal :=
  (claims.find? (fun p => p.1 == k)).map (fun p => p.2)

/-- JWT signing methods. `HS256`/`HS384`/`HS512` are the
`jwt.SigningMethodHMAC` family; the others stand for any non-HMAC method a
hostile token's header could declare. -/
inductive SigningMethod where
  | HS256
  | HS384
  | HS512
  | RS256
  | ES256
  | algNone
deriving DecidableEq, Repr

/-- The Go type switch `token.Method.(*jwt.SigningMethodHMAC)` in
`validateJWT`: true exactly on the symmetric HMAC family. -/
def SigningMethod.isHMAC : SigningMethod → Bool
  | .HS256 => true
  | .HS384 => true
  | .HS512 => true
  | _ => false

/-- A MAC value, modelled as the formal term of its computation: two
signature terms are equal exactly when algorithm, key and signed claim set
coincide (perfect-MAC assumption). -/
structure Signature where
  alg : SigningMethod
  key : String
  signedClaims : JSONObj
deriving DecidableEq, Repr

/-- `HMAC(key, payload)` under method `alg`, symbolically. -/
def hmacSign (alg : SigningMethod) (key : String) (claims : JSONObj) : Signature :=
  ⟨alg, key, claims⟩

/-- The token string travelling in the `x-jwt-token` header, as the JWT
parser sees it: either not a well-formed `header.payload.signature` triple
(this includes the empty string produced by a missing header), or a
structured token. -/
inductive TokenStr where
  | malformed (raw : String)
  | tok (alg : SigningMethod) (claims : JSONObj) (sig : Signature)
deriving DecidableEq, Repr

/-- The `*jwt.Token` value returned by a successful `jwt.Parse`: the decoded
claims, the declared method, and the `Valid` flag (set by the parser). -/
structure ParsedToken where
  method : SigningMethod
  claims : JSONObj
  valid : Bool
deriving DecidableEq, Repr

/-- Error classes of `jwt.Parse` as the spec names them (`Malformed`,
`BadAlgorithm`, `BadSignature`) plus the library's standard-claims
validation failure. -/
inductive JWTError where
  | malformed
  | badAlgorithm
  | badSignature
  | invalidClaims
deriving DecidableEq, Repr

/-- `jwt.MapClaims.Valid` of jwt/v4 at time `now`: checks the registered
claims `exp` (strictly in the future when present), `iat` and `nbf` (not in
the future when present); a registered claim of a non-numeric type fails
verification. The service's own claim keys (`expiresAt`, `accountNumber`)
are not registered claims and are never inspected here. -/
def mapClaimsValid (claims : JSONObj) (now : Int) : Bool :=
  (match lookupClaim claims "exp" with
    | none => true
    | some (.num e) => decide (now < e)
    | some _ => false) &&
  (match lookupClaim claims "iat" with
    | none => true
    | some (.num i) => decide (i ≤ now)
    | some _ => false) &&
  (match lookupClaim claims "nbf" with
    | none => true
    | some (.num n) => decide (n ≤ now)
    | some _ => false)

/-- Modelled from the spec: the bcrypt digest (golang.org/x/crypto/bcrypt is
an external library, absent from the repository sources). The spec's
Credential Hasher contract (§4.1) is a salted, cost-parameterized one-way
hash; the digest is modelled as the opaque term `bcrypt(cost, salt, p)`,
represented by its components (one-way-ness is a modelling assumption; the
code never inverts it). -/
structure BcryptDigest where
  cost : Nat
  salt : Nat
  preimage : String
deriving DecidableEq, Repr

/-- Modelled from the spec: `bcrypt.GenerateFromPassword` — produce the
salted digest at the given cost (`bcrypt.DefaultCost` is 10). -/
def generateFromPassword (cost : Nat) (salt : Nat) (password : String) : BcryptDigest :=
  ⟨cost, salt, password⟩

/-- Modelled from the spec: `bcrypt.CompareHashAndPassword == nil` — extract
cost and salt from the stored hash, recompute the digest of the candidate
password, and compare; a plain boolean, never an exception. -/
def compareHashAndPassword (hash : BcryptDigest) (password : String) : Bool :=
  hash == generateFromPassword hash.cost hash.salt password

/-- Account record (types.go). `EncryptedPassword` carries the bcrypt hash
(Go stores its string rendering; the embedding keeps it structured); its
json tag is `-`, so it is excluded from serialization (see
`marshalAccount`). -/
structure Account where
  ID : Int
  FirstName : String
  LastName : String
  Number : Int
  EncryptedPassword : BcryptDigest
  Balance : Int
  CreatedAt : Int
deriving DecidableEq, Repr

/-- `ValidPassword` (types.go): bcrypt-compare the stored hash against the
candidate password; a plain boolean. -/
def Account.ValidPassword (a : Account) (pw : String) : Bool :=
  compareHashAndPassword a.EncryptedPassword pw

/-- The claim set `createJWT` builds for an account:
`{"expiresAt": 15000, "accountNumber": account.Number}`. -/
def issuedClaims (account : Account) : JSONObj :=
  [("expiresAt", .num 15000), ("accountNumber", .num account.Number)]

/-- `createJWT` (api.go): builds the claim set and signs it with HS256 under
the process-wide secret (the `JWT_SECRET` environment value, possibly the
empty string when unset). `SignedString` cannot fail for an HS256 method
with a byte-slice key, so the error branch is dead here; the `Except` shape
mirrors the Go signature. -/
def createJWT (secret : String) (account : Account) : Except String TokenStr :=
  let claims := issuedClaims account
  .ok (.tok .HS256 claims (hmacSign .HS256 secret claims))

/-- `validateJWT` (api.go): `jwt.Parse` with a keyfunc that rejects any
non-HMAC method and otherwise supplies the secret. Parsing fails on a
malformed string; the keyfunc's algorithm check precedes all verification;
then the signature must be the HMAC of the claims under the secret, and the
registered claims must pass `MapClaims.Valid`. -/
def validateJWT (secret : String) (now : Int) (t : TokenStr) :
    Except JWTError ParsedToken :=
  match t with
  | .malformed _ => .error .malformed
  | .tok alg claims sig =>
    if alg.isHMAC = false then .error .badAlgorithm
    else if sig ≠ hmacSign alg secret claims then .error .badSignature
    else if mapClaimsValid claims now = false then .error .invalidClaims
    else .ok ⟨alg, claims, true⟩

/-- `NewAccount` (types.go): hash the password with bcrypt at the default
cost, draw `rand.Intn(1000000)` for the account number, stamp the current
UTC time; `ID` and `Balance` are zero until the store assigns them. The
salt, random draw and clock are explicit parameters of the embedding; the
`Except` shape mirrors the Go signature (hashing failure is resource
exhaustion, which the model cannot exhibit). -/
def NewAccount (salt : Nat) (randN : Nat) (now : Int)
    (firstName lastName password : String) : Except String Account :=
  .ok
    { ID := 0
      FirstName := firstName
      LastName := lastName
      Number := Int.ofNat (randN % 1000000)
      EncryptedPassword := generateFromPassword 10 salt password
      Balance := 0
      CreatedAt := now }

/-- Modelled from the spec: `Storage.GetAccountByID` (the Postgres store is
absent from the repository sources; §6 gives the contract: account or
`NotFound`). The store is a list of records keyed by `ID`. -/
def GetAccountByID (st : List Account) (id : Int) : Except String Account :=
  match st.find? (fun a => a.ID == id) with
  | some a => .ok a
  | none => .error "account not found"

/-- Modelled from the spec: `Storage.GetAccountByNumber` — account or
`NotFound`, keyed by the client-facing account number. -/
def GetAccountByNumber (st : List Account) (number : Int) : Except String Account :=
  match st.find? (fun a => a.Number == number) with
  | some a => .ok a
  | none => .error "account not found"

/-- Modelled from the spec: `Storage.CreateAccount` — persist one record. -/
def CreateAccount (st : List Account) (a : Account) : List Account :=
  st ++ [a]

/-- Modelled from the spec: `Storage.DeleteAccount` — remove the record with
the given id, `NotFound` when absent. -/
def DeleteAccount (st : List Account) (id : Int) : Except String (List Account) :=
  if st.any (fun a => a.ID == id) then .ok (st.filter (fun a => a.ID != id))
  else .error "account not found"

/-- Modelled from the spec: `Storage.GetAccounts` — every stored record. -/
def GetAccounts (st : List Account) : List Account :=
  st

/-- The route a request matched (Run, api.go registers exactly these four;
`accountID` carries the raw `{id}` path segment mux extracted). -/
inductive Path where
  | login
  | account
  | accountID (idv : String)
  | transfer
deriving DecidableEq, Repr

/-- An inbound HTTP request as the handlers see it: method, matched route,
the `x-jwt-token` header when present, and the decoded JSON object of the
body when the body is well-formed JSON (`none` covers an empty or
unparseable body). -/
structure Request where
  method : String
  path : Path
  token : Option TokenStr
  body : Option JSONObj
deriving DecidableEq, Repr

/-- `r.Header.Get("x-jwt-token")`: the header's value, or the empty string
(which parses as malformed) when the header is absent. -/
def headerGet (r : Request) : TokenStr :=
  match r.token with
  | some t => t
  | none => .malformed ""

/-- Digit run of `strconv.Atoi`: all characters must be decimal digits and
there must be at least one. -/
def parseNatDigits (cs : List Char) : Option Nat :=
  if cs.isEmpty then none
  else cs.foldlM (fun acc c => if c.isDigit then some (acc * 10 + (c.toNat - 48)) else none) 0

/-- `strconv.Atoi`: optional sign then digits (the model elides the 64-bit
range check; route ids are small). -/
def atoi (s : String) : Except String Int :=
  match s.data with
  | '-' :: rest =>
    match parseNatDigits rest with
    | some n => .ok (-(n : Int))
    | none => .error ("invalid id given " ++ s)
  | '+' :: rest =>
    match parseNatDigits rest with
    | some n => .ok (n : Int)
    | none => .error ("invalid id given " ++ s)
  | cs =>
    match parseNatDigits cs with
    | some n => .ok (n : Int)
    | none => .error ("invalid id given " ++ s)

/-- `getID` (api.go): `strconv.Atoi(mux.Vars(r)["id"])`; on routes without
an `{id}` variable the mux map is empty and Atoi sees the empty string. -/
def getID (r : Request) : Except String Int :=
  match r.path with
  | .accountID s => atoi s
  | _ => atoi ""

/-- The JSON object `encoding/json` produces for an `Account` (types.go json
tags): `id`, `firstName`, `lastName`, `number`, `balance`, `createdAt`; the
`EncryptedPassword` field is tagged `json:"-"` and is omitted. -/
structure AccountJSON where
  id : Int
  firstName : String
  lastName : String
  number : Int
  balance : Int
  createdAt : Int
deriving DecidableEq, Repr

/-- Serialize an account outward (`WriteJSON` on an `*Account`). -/
def marshalAccount (a : Account) : AccountJSON :=
  { id := a.ID
    firstName := a.FirstName
    lastName := a.LastName
    number := a.Number
    balance := a.Balance
    createdAt := a.CreatedAt }

/-- The JSON bodies the server writes (`WriteJSON` values): the `ApiError`
shape, serialized accounts, the delete confirmation map, the login response
and the transfer echo. -/
inductive ResponseBody where
  | apiError (msg : String)
  | account (a : AccountJSON)
  | accounts (l : List AccountJSON)
  | deleted (id : Int)
  | loginResp (number : Int) (token : TokenStr)
  | transferResp (toAccount amount : Int)
deriving DecidableEq, Repr

/-- What the server sends back for one request: a status plus body, or a
runtime panic escaping the handler stack. -/
inductive Outcome where
  | respond (status : Nat) (body : ResponseBody)
  | panicked
deriving DecidableEq, Repr

/-- What the Access Guard does with a request: write a response itself,
panic, or delegate to the wrapped handler. -/
inductive GuardOutcome where
  | respond (status : Nat) (body : ResponseBody)
  | panicked
  | delegated (r : Request)
deriving DecidableEq, Repr

/-- `permissionDenied` (api.go): 403 with `{"error": "permission denied"}`. -/
def permissionDeniedOut : GuardOutcome :=
  .respond 403 (.apiError "permission denied")

/-- `withJWTAuth` (api.go): extract the header token, validate it, check the
parser's `Valid` flag, parse the path id, look the account up, then compare
`account.Number` against the unguarded type assertion
`claims["accountNumber"].(float64)` — a missing or non-numeric claim
panics. The final `if err != nil` re-examines the error of the account
lookup already known to be nil, so its "invalid token" response is dead
code; the re-match mirrors it. -/
def withJWTAuth (store : List Account) (secret : String) (now : Int)
    (r : Request) : GuardOutcome :=
  match validateJWT secret now (headerGet r) with
  | .error _ => permissionDeniedOut
  | .ok token =>
    if token.valid = false then permissionDeniedOut
    else
      match getID r with
      | .error _ => permissionDeniedOut
      | .ok userID =>
        match GetAccountByID store userID with
        | .error _ => permissionDeniedOut
        | .ok account =>
          match lookupClaim token.claims "accountNumber" with
          | some (.num n) =>
            if account.Number ≠ n then permissionDeniedOut
            else
              match GetAccountByID store userID with
              | .error _ => GuardOutcome.respond 403 (.apiError "invalid token")
              | .ok _ => .delegated r
          | _ => .panicked

/-- Field extraction of `encoding/json` unmarshalling into a string struct
field: a missing field leaves the zero value, a string decodes, any other
type is an unmarshal error. -/
def getStrField (o : JSONObj) (k : String) : Except String String :=
  match lookupClaim o k with
  | none => .ok ""
  | some (.str s) => .ok s
  | some _ => .error ("json: cannot unmarshal field " ++ k)

/-- Field extraction of `encoding/json` unmarshalling into an integer struct
field: a missing field leaves the zero value, a number decodes, any other
type is an unmarshal error. -/
def getIntField (o : JSONObj) (k : String) : Except String Int :=
  match lookupClaim o k with
  | none => .ok 0
  | some (.num n) => .ok n
  | some _ => .error ("json: cannot unmarshal field " ++ k)

/-- `CreateAccountRequest` (types.go). -/
structure CreateAccountRequest where
  firstName : String
  lastName : String
  password : String
deriving DecidableEq, Repr

/-- `LoginRequest` (types.go). -/
structure LoginRequest where
  number : Int
  password : String
deriving DecidableEq, Repr

/-- `TransferRequest` (types.go). -/
structure TransferRequest where
  toAccount : Int
  amount : Int
deriving DecidableEq, Repr

/-- `json.NewDecoder(r.Body).Decode(&CreateAccountRequest{...})`: an absent
or unparseable body is a decode error (EOF); a JSON object fills the tagged
fields. -/
def decodeCreateAccountRequest (body : Option JSONObj) :
    Except String CreateAccountRequest :=
  match body with
  | none => .error "EOF"
  | some o => do
    let f ← getStrField o "firstName"
    let l ← getStrField o "lastName"
    let p ← getStrField o "password"
    .ok ⟨f, l, p⟩

/-- `json.NewDecoder(r.Body).Decode(&LoginRequest{...})`. -/
def decodeLoginRequest (body : Option JSONObj) : Except String LoginRequest :=
  match body with
  | none => .error "EOF"
  | some o => do
    let n ← getIntField o "number"
    let p ← getStrField o "password"
    .ok ⟨n, p⟩

/-- `json.NewDecoder(r.Body).Decode(&TransferRequest{...})`. -/
def decodeTransferRequest (body : Option JSONObj) : Except String TransferRequest :=
  match body with
  | none => .error "EOF"
  | some o => do
    let t ← getIntField o "toAccount"
    let a ← getIntField o "amount"
    .ok ⟨t, a⟩

/-- The JSON object a `CreateAccountRequest` serializes to (used to phrase
concrete requests in theorems). -/
def encodeCreateAccountRequest (c : CreateAccountRequest) : JSONObj :=
  [("firstName", .str c.firstName), ("lastName", .str c.lastName),
   ("password", .str c.password)]

/-- Process-wide effect context: the `JWT_SECRET` environment value (empty
when unset), the clock, and the bcrypt salt and `rand` draw consumed by the
next `NewAccount`. -/
structure Env where
  secret : String
  now : Int
  bcryptSalt : Nat
  randN : Nat
deriving Repr

/-- An `apiFunc` result plus the store state it leaves behind (the store is
threaded explicitly; a handler that errors has not mutated it). -/
abbrev HandlerResult := Except String ResponseBody × List Account

/-- `handleLogin` (api.go): POST only; decode, look the account up by
number, bcrypt-check the password, issue the token. -/
def handleLogin (env : Env) (st : List Account) (r : Request) : HandlerResult :=
  if r.method ≠ "POST" then (.error ("method not allowed " ++ r.method), st)
  else
    match decodeLoginRequest r.body with
    | .error e => (.error e, st)
    | .ok req =>
      match GetAccountByNumber st req.number with
      | .error e => (.error e, st)
      | .ok acc =>
        if acc.ValidPassword req.password = false then
          (.error "not authenticated", st)
        else
          match createJWT env.secret acc with
          | .error e => (.error e, st)
          | .ok token => (.ok (.loginResp acc.Number token), st)

/-- `handleGetAccount` (api.go): list every account. -/
def handleGetAccount (st : List Account) : HandlerResult :=
  (.ok (.accounts ((GetAccounts st).map marshalAccount)), st)

/-- `handleCreateAccount` (api.go): decode, build the account, persist it,
echo the created record. -/
def handleCreateAccount (env : Env) (st : List Account) (r : Request) :
    HandlerResult :=
  match decodeCreateAccountRequest r.body with
  | .error e => (.error e, st)
  | .ok req =>
    match NewAccount env.bcryptSalt env.randN env.now
        req.firstName req.lastName req.password with
    | .error e => (.error e, st)
    | .ok account =>
      (.ok (.account (marshalAccount account)), CreateAccount st account)

/-- `handleAccount` (api.go): GET lists, POST creates, anything else is a
method-not-allowed error. -/
def handleAccount (env : Env) (st : List Account) (r : Request) : HandlerResult :=
  if r.method = "GET" then handleGetAccount st
  else if r.method = "POST" then handleCreateAccount env st r
  else (.error ("method not allowed " ++ r.method), st)

/-- `handleDeleteAccount` (api.go): parse the id, delete, confirm. -/
def handleDeleteAccount (st : List Account) (r : Request) : HandlerResult :=
  match getID r with
  | .error e => (.error e, st)
  | .ok id =>
    match DeleteAccount st id with
    | .error e => (.error e, st)
    | .ok st' => (.ok (.deleted id), st')

/-- `handleGetAccountByID` (api.go): GET fetches by id, DELETE deletes,
anything else is a method-not-allowed error. -/
def handleGetAccountByID (st : List Account) (r : Request) : HandlerResult :=
  if r.method = "GET" then
    match getID r with
    | .error e => (.error e, st)
    | .ok id =>
      match GetAccountByID st id with
      | .error e => (.error e, st)
      | .ok account => (.ok (.account (marshalAccount account)), st)
  else if r.method = "DELETE" then handleDeleteAccount st r
  else (.error ("method not allowed " ++ r.method), st)

/-- `handleTransfer` (api.go): decode and echo; no balance mutation. -/
def handleTransfer (st : List Account) (r : Request) : HandlerResult :=
  match decodeTransferRequest r.body with
  | .error e => (.error e, st)
  | .ok t => (.ok (.transferResp t.toAccount t.amount), st)

/-- `makeHTTPHandleFunc` (api.go): success writes 200 with the value, an
`apiFunc` error writes 400 with `{"error": message}`. -/
def runHandler (res : HandlerResult) : Outcome × List Account :=
  match res with
  | (.ok body, st) => (.respond 200 body, st)
  | (.error e, st) => (.respond 400 (.apiError e), st)

/-- One request against the router `Run` (api.go) builds: `/login`,
`/account` and `/transfer` dispatch straight to their handlers; only
`/account/{id}` passes through `withJWTAuth`, which either responds itself,
panics, or delegates to `handleGetAccountByID`. -/
def serve (env : Env) (st : List Account) (r : Request) : Outcome × List Account :=
  match r.path with
  | .login => runHandler (handleLogin env st r)
  | .account => runHandler (handleAccount env st r)
  | .accountID _ =>
    match withJWTAuth st env.secret env.now r with
    | .respond status body => (.respond status body, st)
    | .panicked => (.panicked, st)
    | .delegated r' => runHandler (handleGetAccountByID st r')
  | .transfer => runHandler (handleTransfer st r)

/-- Equality of accounts up to the hashed credential: every serialized
field agrees, only `EncryptedPassword` may differ. -/
def credEq (a b : Account) : Prop :=
  a.ID = b.ID ∧ a.FirstName = b.FirstName ∧ a.LastName = b.LastName ∧
  a.Number = b.Number ∧ a.Balance = b.Balance ∧ a.CreatedAt = b.CreatedAt

/-! Concrete fixtures for witnesses: the spec's §8 scenario — account A with
number 42 and id 1, account B with number 99 and id 2, a token issued for A
under the secret `"secret"`. -/

/-- Account A of the spec scenario: id 1, number 42. -/
def accA : Account :=
  ⟨1, "anthony", "GG", 42, generateFromPassword 10 7 "hunter88888", 0, 100⟩

/-- Account B of the spec scenario: id 2, number 99. -/
def accB : Account :=
  ⟨2, "bee", "B", 99, generateFromPassword 10 8 "pw", 0, 100⟩

/-- A store holding exactly A and B. -/
def demoStore : List Account := [accA, accB]

/-- The token `createJWT "secret" accA` produces. -/
def tokA : TokenStr :=
  .tok .HS256 (issuedClaims accA) (hmacSign .HS256 "secret" (issuedClaims accA))

/-- A's token presented against A's own resource id. -/
def reqA : Request := ⟨"GET", .accountID "1", some tokA, none⟩

/-- A's token presented against B's resource id. -/
def reqB : Request := ⟨"GET", .accountID "2", some tokA, none⟩

/-- A request to the guarded route with no `x-jwt-token` header at all. -/
def reqNoTok : Request := ⟨"GET", .accountID "1", none, none⟩

/-- A validly-signed token whose `accountNumber` claim is a JSON string, not
a number. -/
def tokBadClaim : TokenStr :=
  .tok .HS256 [("accountNumber", .str "42")]
    (hmacSign .HS256 "secret" [("accountNumber", .str "42")])

/-- The bad-claim token presented against A's resource id. -/
def reqBadClaim : Request := ⟨"GET", .accountID "1", some tokBadClaim, none⟩

/-- The demo effect context. -/
def demoEnv : Env := ⟨"secret", 0, 3, 123⟩

/-- A tokenless account-creation request with a well-formed body. -/
def reqCreateNoTok : Request :=
  ⟨"POST", .account, none, some (encodeCreateAccountRequest ⟨"a", "b", "hunter2"⟩)⟩

/-- Account A with a different stored credential (same public fields). -/
def accA' : Account :=
  { accA with EncryptedPassword := generateFromPassword 10 99 "other" }

end GoBank

namespace GoBank

/-! Helper lemmas about the Token Service. -/

/-- A token signed over its own claims with the current secret and an HMAC
method validates, yielding the claims and a set `Valid` flag. -/
theorem validateJWT_signed (secret : String) (now : Int) (alg : SigningMethod)
    (claims : JSONObj) (halg : alg.isHMAC = true)
    (hcl : mapClaimsValid claims now = true) :
    validateJWT secret now (.tok alg claims (hmacSign alg secret claims)) =
      .ok ⟨alg, claims, true⟩ := by
  simp [validateJWT, halg, hcl]

/-- The claim set `createJWT` issues carries no registered claims, so the
library's standard-claims check passes at every time. -/
theorem mapClaimsValid_issued (a : Account) (now : Int) :
    mapClaimsValid (issuedClaims a) now = true := rfl

/-- Inversion of a successful `validateJWT`: the token was structured, HMAC,
signed over its claims with the current secret, its registered claims pass,
and the parser set `Valid`. -/
theorem validateJWT_ok_inv (secret : String) (now : Int) (t : TokenStr)
    (pt : ParsedToken) (h : validateJWT secret now t = .ok pt) :
    t = .tok pt.method pt.claims (hmacSign pt.method secret pt.claims) ∧
    pt.method.isHMAC = true ∧ mapClaimsValid pt.claims now = true ∧
    pt.valid = true := by
  cases t with
  | malformed raw => simp [validateJWT] at h
  | tok alg claims sig =>
    simp only [validateJWT] at h
    split_ifs at h with h1 h2 h3
    push_neg at h2
    injection h with h4
    subst h4
    exact ⟨by rw [h2], by simpa using h1, by simpa using h3, rfl⟩

end GoBank

namespace GoBank

/-- Looking the `accountNumber` claim up in an issued claim set. -/
theorem lookupClaim_issued_accountNumber (a : Account) :
    lookupClaim (issuedClaims a) "accountNumber" = some (.num a.Number) := rfl

/-- Looking the `expiresAt` claim up in an issued claim set. -/
theorem lookupClaim_issued_expiresAt (a : Account) :
    lookupClaim (issuedClaims a) "expiresAt" = some (.num 15000) := rfl

/-- A request whose header holds token `t` presents `t` to the parser. -/
theorem headerGet_some {r : Request} {t : TokenStr} (h : r.token = some t) :
    headerGet r = t := by
  unfold headerGet
  rw [h]

/-- C4: for every account `a`, validating the token produced by issuing for
`a` under the same process-wide secret succeeds, and the returned claim
set's `accountNumber` equals `a.Number`. -/
theorem token_roundtrip (secret : String) (now : Int) (a : Account) :
    ∃ t pt, createJWT secret a = .ok t ∧ validateJWT secret now t = .ok pt ∧
      lookupClaim pt.claims "accountNumber" = some (.num a.Number) :=
  ⟨_, _, rfl,
    validateJWT_signed secret now .HS256 (issuedClaims a) rfl
      (mapClaimsValid_issued a now),
    lookupClaim_issued_accountNumber a⟩

/-- C5: verifying `p` against the hash of `p` returns true, verifying the
distinct plaintext `p ++ "x"` against it returns false, and `ValidPassword`
only ever returns a boolean. -/
theorem hash_roundtrip (cost salt : Nat) (p : String) (a : Account)
    (h : a.EncryptedPassword = generateFromPassword cost salt p) :
    a.ValidPassword p = true ∧ a.ValidPassword (p ++ "x") = false := by
  constructor
  · simp [Account.ValidPassword, h, compareHashAndPassword, generateFromPassword]
  · simp only [Account.ValidPassword, h, compareHashAndPassword,
      generateFromPassword]
    simp only [beq_eq_false_iff_ne, ne_eq, BcryptDigest.mk.injEq]
    intro hx
    have hlen := congrArg String.length hx.2.2
    rw [String.length_append] at hlen
    simp only [Nat.self_eq_add_right] at hlen
    exact absurd hlen (by decide)

/-- Witness for C5 at the seeded account's password. -/
theorem hash_roundtrip_witness :
    Account.ValidPassword accA "hunter88888" = true ∧
    Account.ValidPassword accA ("hunter88888" ++ "x") = false :=
  hash_roundtrip 10 7 "hunter88888" accA rfl

/-- C6: the issued claim set stores the raw constant 15000 under
`expiresAt`, and a well-signed HMAC token validates successfully for every
value of that claim — the verifier never interprets it. -/
theorem advisory_expiry (secret : String) (now : Int) (a : Account)
    (alg : SigningMethod) (v n : Int) (halg : alg.isHMAC = true) :
    (∀ t, createJWT secret a = Except.ok t →
      ∃ sig, t = .tok .HS256 (issuedClaims a) sig ∧
        lookupClaim (issuedClaims a) "expiresAt" = some (.num 15000)) ∧
    validateJWT secret now
        (.tok alg [("expiresAt", .num v), ("accountNumber", .num n)]
          (hmacSign alg secret [("expiresAt", .num v), ("accountNumber", .num n)])) =
      .ok ⟨alg, [("expiresAt", .num v), ("accountNumber", .num n)], true⟩ := by
  constructor
  · intro t ht
    refine ⟨hmacSign .HS256 secret (issuedClaims a), ?_, lookupClaim_issued_expiresAt a⟩
    cases ht
    rfl
  · exact validateJWT_signed secret now alg _ halg rfl

/-- Witness for C6: an HMAC token whose `expiresAt` is the long-past value
-77 still validates at time 99999. -/
theorem advisory_expiry_witness :
    validateJWT "secret" 99999
        (.tok .HS256 [("expiresAt", .num (-77)), ("accountNumber", .num 42)]
          (hmacSign .HS256 "secret"
            [("expiresAt", .num (-77)), ("accountNumber", .num 42)])) =
      .ok ⟨.HS256, [("expiresAt", .num (-77)), ("accountNumber", .num 42)], true⟩ :=
  (advisory_expiry "secret" 99999 accA .HS256 (-77) 42 rfl).2

/-- C7: a token whose header declares a signing method outside the HMAC
family is rejected with the bad-algorithm error, whatever its claims and
signature — validation never returns success for it. -/
theorem algorithm_confusion_rejected (secret : String) (now : Int)
    (alg : SigningMethod) (claims : JSONObj) (sig : Signature)
    (halg : alg.isHMAC = false) :
    validateJWT secret now (.tok alg claims sig) = .error .badAlgorithm := by
  simp [validateJWT, halg]

/-- Witness for C7: an otherwise well-formed RS256 token over the issued
claim shape is rejected. -/
theorem algorithm_confusion_rejected_witness :
    validateJWT "secret" 0
        (.tok .RS256 (issuedClaims accA)
          (hmacSign .RS256 "secret" (issuedClaims accA))) =
      .error .badAlgorithm :=
  algorithm_confusion_rejected "secret" 0 .RS256 (issuedClaims accA)
    (hmacSign .RS256 "secret" (issuedClaims accA)) rfl

/-- C8, behaviour at the failing input: with the signing secret absent (the
empty string `os.Getenv` returns), issuance succeeds and the resulting
token validates successfully — the empty string is used as an ordinary HMAC
key, contrary to the spec's requirement to surface `SigningFailed` or
`BadSignature`. -/
theorem empty_secret_token_validates :
    ∃ t pt, createJWT "" accA = .ok t ∧ validateJWT "" 0 t = .ok pt ∧
      lookupClaim pt.claims "accountNumber" = some (.num 42) :=
  ⟨_, _, rfl, rfl, rfl⟩

end GoBank

namespace GoBank

/-- Behaviour of the Access Guard on a request presenting the token issued
for account `A`: it delegates exactly when the path id resolves to a stored
account whose number equals `A`'s, and responds with the uniform permission
denial in every other case. -/
theorem guard_issued_token_cases (store : List Account) (secret : String)
    (now : Int) (A : Account) (r : Request)
    (hr : headerGet r =
      .tok .HS256 (issuedClaims A) (hmacSign .HS256 secret (issuedClaims A))) :
    (withJWTAuth store secret now r = .delegated r ∧
      ∃ i acc, getID r = .ok i ∧ GetAccountByID store i = .ok acc ∧
        acc.Number = A.Number) ∨
    (withJWTAuth store secret now r = permissionDeniedOut ∧
      ∀ i acc, getID r = .ok i → GetAccountByID store i = .ok acc →
        acc.Number ≠ A.Number) := by
  have hv : validateJWT secret now (headerGet r) =
      .ok ⟨.HS256, issuedClaims A, true⟩ := by
    rw [hr]
    exact validateJWT_signed secret now .HS256 (issuedClaims A) rfl
      (mapClaimsValid_issued A now)
  cases hg : getID r with
  | error e =>
    right
    refine ⟨?_, ?_⟩
    · unfold withJWTAuth
      rw [hv]
      simp [hg]
    · intro i acc hi
      exact Except.noConfusion hi
  | ok userID =>
    cases ha : GetAccountByID store userID with
    | error e =>
      right
      refine ⟨?_, ?_⟩
      · unfold withJWTAuth
        rw [hv]
        simp [hg, ha]
      · intro i acc hi hacc
        injection hi with hii
        subst hii
        rw [ha] at hacc
        exact Except.noConfusion hacc
    | ok account =>
      by_cases hnum : account.Number = A.Number
      · left
        refine ⟨?_, userID, account, rfl, ha, hnum⟩
        unfold withJWTAuth
        rw [hv]
        simp [hg, ha, lookupClaim_issued_accountNumber, hnum]
      · right
        refine ⟨?_, ?_⟩
        · unfold withJWTAuth
          rw [hv]
          simp [hg, ha, lookupClaim_issued_accountNumber, hnum]
        · intro i acc hi hacc
          injection hi with hii
          subst hii
          rw [ha] at hacc
          injection hacc with haa
          subst haa
          exact hnum

end GoBank

namespace GoBank

/-- C1: for stored accounts A and B with distinct account numbers, a request
bearing the token issued for A and targeting B's resource id is denied with
the uniform permission denial, the same token targeting A's own resource id
is delegated to the wrapped handler, and in general the guard admits a
request carrying A's token exactly when the account looked up by the path
id has account number equal to the token's `accountNumber` claim. -/
theorem ownership_enforcement (store : List Account) (secret : String)
    (now : Int) (A B : Account) (tA : TokenStr) (rA rB : Request) (iA iB : Int)
    (hA : createJWT secret A = .ok tA)
    (hnum : A.Number ≠ B.Number)
    (htA : rA.token = some tA) (hiA : getID rA = .ok iA)
    (haA : GetAccountByID store iA = .ok A)
    (htB : rB.token = some tA) (hiB : getID rB = .ok iB)
    (haB : GetAccountByID store iB = .ok B) :
    withJWTAuth store secret now rB = permissionDeniedOut ∧
    withJWTAuth store secret now rA = .delegated rA ∧
    ∀ r : Request, r.token = some tA →
      (withJWTAuth store secret now r = .delegated r ↔
        ∃ i acc, getID r = .ok i ∧ GetAccountByID store i = .ok acc ∧
          acc.Number = A.Number) := by
  have htok : tA = .tok .HS256 (issuedClaims A)
      (hmacSign .HS256 secret (issuedClaims A)) := by
    cases hA
    rfl
  have hcase : ∀ r : Request, r.token = some tA →
      (withJWTAuth store secret now r = .delegated r ∧
        ∃ i acc, getID r = .ok i ∧ GetAccountByID store i = .ok acc ∧
          acc.Number = A.Number) ∨
      (withJWTAuth store secret now r = permissionDeniedOut ∧
        ∀ i acc, getID r = .ok i → GetAccountByID store i = .ok acc →
          acc.Number ≠ A.Number) := by
    intro r hrt
    exact guard_issued_token_cases store secret now A r
      (htok ▸ headerGet_some hrt)
  have hiff : ∀ r : Request, r.token = some tA →
      (withJWTAuth store secret now r = .delegated r ↔
        ∃ i acc, getID r = .ok i ∧ GetAccountByID store i = .ok acc ∧
          acc.Number = A.Number) := by
    intro r hrt
    rcases hcase r hrt with ⟨hdel, hex⟩ | ⟨hden, hall⟩
    · exact ⟨fun _ => hex, fun _ => hdel⟩
    · constructor
      · intro hd
        rw [hden] at hd
        exact absurd hd (by simp [permissionDeniedOut])
      · rintro ⟨i, acc, hi, hacc, heq⟩
        exact absurd heq (hall i acc hi hacc)
  refine ⟨?_, ?_, hiff⟩
  · rcases hcase rB htB with ⟨hdel, i, acc, hi, hacc, heq⟩ | ⟨hden, _⟩
    · rw [hiB] at hi
      injection hi with hii
      subst hii
      rw [haB] at hacc
      injection hacc with haa
      subst haa
      exact absurd heq.symm hnum
    · exact hden
  · rcases hcase rA htA with ⟨hdel, _⟩ | ⟨hden, hall⟩
    · exact hdel
    · exact absurd rfl (hall iA A hiA haA)

/-- Witness for C1 at the spec's §8 scenario: A (id 1, number 42), B (id 2,
number 99), A's token against id 2 is denied and against id 1 admitted. -/
theorem ownership_enforcement_witness :
    withJWTAuth demoStore "secret" 0 reqB = permissionDeniedOut ∧
    withJWTAuth demoStore "secret" 0 reqA = .delegated reqA := by
  have h := ownership_enforcement demoStore "secret" 0 accA accB tokA reqA reqB
    1 2 rfl (by decide) rfl rfl rfl rfl rfl rfl
  exact ⟨h.1, h.2.1⟩

end GoBank

namespace GoBank

/-- C2: the four failure modes — (a) no token header, (b) a token the parser
rejects (syntactically invalid or badly signed), (c) a valid token whose
numeric `accountNumber` claim differs from the target account's number, and
(d) a valid token targeting a resource id with no stored account — all
produce the identical permission-denied outcome (same status, same error
body), and the guard's alternative "invalid token" response is dead code,
never produced on any request. -/
theorem uniform_denial (store : List Account) (secret : String) (now : Int)
    (r : Request) :
    ((r.token = none ∨
      (∃ e, validateJWT secret now (headerGet r) = .error e) ∨
      (∃ pt n i acc, validateJWT secret now (headerGet r) = .ok pt ∧
        lookupClaim pt.claims "accountNumber" = some (.num n) ∧
        getID r = .ok i ∧ GetAccountByID store i = .ok acc ∧
        acc.Number ≠ n) ∨
      (∃ pt i e, validateJWT secret now (headerGet r) = .ok pt ∧
        getID r = .ok i ∧ GetAccountByID store i = .error e)) →
      withJWTAuth store secret now r = permissionDeniedOut) ∧
    withJWTAuth store secret now r ≠ GuardOutcome.respond 403 (.apiError "invalid token") := by
  constructor
  · rintro (hnone | ⟨e, he⟩ | ⟨pt, n, i, acc, hok, hcl, hi, hacc, hne⟩ |
      ⟨pt, i, e, hok, hi, hacc⟩)
    · have hh : headerGet r = .malformed "" := by
        unfold headerGet
        rw [hnone]
      unfold withJWTAuth
      rw [hh]
      rfl
    · unfold withJWTAuth
      rw [he]
    · have hval := (validateJWT_ok_inv secret now _ pt hok).2.2.2
      unfold withJWTAuth
      rw [hok]
      simp [hval, hi, hacc, hcl, hne]
    · have hval := (validateJWT_ok_inv secret now _ pt hok).2.2.2
      unfold withJWTAuth
      rw [hok]
      simp [hval, hi, hacc]
  · cases hv : validateJWT secret now (headerGet r) with
    | error e =>
      unfold withJWTAuth
      rw [hv]
      simp [permissionDeniedOut]
    | ok pt =>
      have hval : pt.valid = true := (validateJWT_ok_inv secret now _ pt hv).2.2.2
      unfold withJWTAuth
      rw [hv]
      cases hi : getID r with
      | error e => simp [hval, hi, permissionDeniedOut]
      | ok i =>
        cases ha : GetAccountByID store i with
        | error e => simp [hval, hi, ha, permissionDeniedOut]
        | ok acc =>
          cases hcl : lookupClaim pt.claims "accountNumber" with
          | none => simp [hval, hi, ha, hcl]
          | some v =>
            cases v with
            | num n =>
              by_cases hne : acc.Number = n
              · simp [hval, hi, ha, hcl, hne]
              · simp [hval, hi, ha, hcl, hne, permissionDeniedOut]
            | str s => simp [hval, hi, ha, hcl]
            | boolean b => simp [hval, hi, ha, hcl]
            | null => simp [hval, hi, ha, hcl]

/-- Witness for C2, mode (a): a guarded request with no token header at all
receives the uniform permission denial. -/
theorem uniform_denial_witness :
    withJWTAuth demoStore "secret" 0 reqNoTok = permissionDeniedOut :=
  (uniform_denial demoStore "secret" 0 reqNoTok).1 (Or.inl rfl)

/-- C10: the guard panics exactly when a token that validates under the
current secret reaches the ownership comparison (path id parses, account
exists) while its claim set's `accountNumber` entry is missing or not a
JSON number — the unguarded type assertion, instead of a denial; on every
other request the guard denies, responds, or delegates. -/
theorem guard_panic_characterization (store : List Account) (secret : String)
    (now : Int) (r : Request) :
    withJWTAuth store secret now r = .panicked ↔
      ∃ pt i acc, validateJWT secret now (headerGet r) = .ok pt ∧
        getID r = .ok i ∧ GetAccountByID store i = .ok acc ∧
        ∀ n : Int, lookupClaim pt.claims "accountNumber" ≠ some (.num n) := by
  cases hv : validateJWT secret now (headerGet r) with
  | error e =>
    have hW : withJWTAuth store secret now r = permissionDeniedOut := by
      unfold withJWTAuth
      rw [hv]
    constructor
    · intro h
      rw [hW] at h
      exact absurd h (by simp [permissionDeniedOut])
    · rintro ⟨pt, i, acc, hok, -, -, -⟩
      exact Except.noConfusion hok
  | ok pt =>
    have hval : pt.valid = true := (validateJWT_ok_inv secret now _ pt hv).2.2.2
    constructor
    · intro h
      cases hi : getID r with
      | error e =>
        have hW : withJWTAuth store secret now r = permissionDeniedOut := by
          unfold withJWTAuth
          rw [hv]
          simp [hval, hi]
        rw [hW] at h
        exact absurd h (by simp [permissionDeniedOut])
      | ok i =>
        cases ha : GetAccountByID store i with
        | error e =>
          have hW : withJWTAuth store secret now r = permissionDeniedOut := by
            unfold withJWTAuth
            rw [hv]
            simp [hval, hi, ha]
          rw [hW] at h
          exact absurd h (by simp [permissionDeniedOut])
        | ok acc =>
          cases hcl : lookupClaim pt.claims "accountNumber" with
          | none =>
            refine ⟨pt, i, acc, rfl, rfl, ha, ?_⟩
            intro n hn
            rw [hcl] at hn
            exact Option.noConfusion hn
          | some v =>
            cases v with
            | num n =>
              by_cases hne : acc.Number = n
              · have hW : withJWTAuth store secret now r = .delegated r := by
                  unfold withJWTAuth
                  rw [hv]
                  simp [hval, hi, ha, hcl, hne]
                rw [hW] at h
                exact absurd h (by simp)
              · have hW : withJWTAuth store secret now r = permissionDeniedOut := by
                  unfold withJWTAuth
                  rw [hv]
                  simp [hval, hi, ha, hcl, hne]
                rw [hW] at h
                exact absurd h (by simp [permissionDeniedOut])
            | str s =>
              refine ⟨pt, i, acc, rfl, rfl, ha, ?_⟩
              intro n hn
              rw [hcl] at hn
              exact JSONVal.noConfusion (Option.some.inj hn)
            | boolean b =>
              refine ⟨pt, i, acc, rfl, rfl, ha, ?_⟩
              intro n hn
              rw [hcl] at hn
              exact JSONVal.noConfusion (Option.some.inj hn)
            | null =>
              refine ⟨pt, i, acc, rfl, rfl, ha, ?_⟩
              intro n hn
              rw [hcl] at hn
              exact JSONVal.noConfusion (Option.some.inj hn)
    · rintro ⟨pt', i, acc, hok, hi, ha, hnonum⟩
      injection hok with hpt
      subst hpt
      unfold withJWTAuth
      rw [hv]
      cases hcl : lookupClaim pt.claims "accountNumber" with
      | none => simp [hval, hi, ha, hcl]
      | some v =>
        cases v with
        | num n => exact absurd hcl (hnonum n)
        | str s => simp [hval, hi, ha, hcl]
        | boolean b => simp [hval, hi, ha, hcl]
        | null => simp [hval, hi, ha, hcl]

/-- A validly-signed token whose `accountNumber` claim is a JSON string
drives the guard into the panic outcome on an existing account's id. -/
theorem guard_panic_instance :
    withJWTAuth demoStore "secret" 0 reqBadClaim = .panicked := rfl

end GoBank

namespace GoBank

/-! Reduction equations for `serve` on each route, and congruence lemmas for
stores that agree on everything but the hashed credential. -/

/-- `serve` on the `/account` route dispatches to `handleAccount`. -/
theorem serve_account (env : Env) (st : List Account) (r : Request)
    (hp : r.path = .account) :
    serve env st r = runHandler (handleAccount env st r) := by
  unfold serve
  rw [hp]

/-- `serve` on the `/account/{id}` route consults the Access Guard first. -/
theorem serve_accountID (env : Env) (st : List Account) (r : Request)
    (s : String) (hp : r.path = .accountID s) :
    serve env st r =
      match withJWTAuth st env.secret env.now r with
      | .respond status body => (.respond status body, st)
      | .panicked => (.panicked, st)
      | .delegated r' => runHandler (handleGetAccountByID st r') := by
  unfold serve
  rw [hp]

/-- Two accounts equal up to the credential serialize identically: the
hashed credential has no field in the outward JSON shape. -/
theorem credEq_marshal {a b : Account} (h : credEq a b) :
    marshalAccount a = marshalAccount b := by
  obtain ⟨h1, h2, h3, h4, h5, h6⟩ := h
  simp [marshalAccount, h1, h2, h3, h4, h5, h6]

/-- `find?` by id on credential-equal stores finds credential-equal records
(or fails on both). -/
theorem forall2_find_credEq (id : Int) :
    ∀ {st1 st2 : List Account}, List.Forall₂ credEq st1 st2 →
    (st1.find? (fun a => a.ID == id) = none ∧
      st2.find? (fun a => a.ID == id) = none) ∨
    (∃ a b, st1.find? (fun a => a.ID == id) = some a ∧
      st2.find? (fun a => a.ID == id) = some b ∧ credEq a b) := by
  intro st1 st2 h
  induction h with
  | nil => exact Or.inl ⟨rfl, rfl⟩
  | cons hab htail ih =>
    rename_i a b l1 l2
    by_cases hid : a.ID = id
    · right
      refine ⟨a, b, ?_, ?_, hab⟩
      · exact List.find?_cons_of_pos _ (by simp [hid])
      · exact List.find?_cons_of_pos _ (by simp [← hab.1, hid])
    · have hbid : ¬ b.ID = id := by
        rw [← hab.1]
        exact hid
      rcases ih with ⟨h1, h2⟩ | ⟨x, y, h1, h2, hxy⟩
      · left
        constructor
        · rw [List.find?_cons_of_neg _ (by simp [hid])]
          exact h1
        · rw [List.find?_cons_of_neg _ (by simp [hbid])]
          exact h2
      · right
        refine ⟨x, y, ?_, ?_, hxy⟩
        · rw [List.find?_cons_of_neg _ (by simp [hid])]
          exact h1
        · rw [List.find?_cons_of_neg _ (by simp [hbid])]
          exact h2

/-- Store lookup by id on credential-equal stores: both miss, or both hit
with credential-equal records. -/
theorem getAccountByID_credEq {st1 st2 : List Account}
    (hrel : List.Forall₂ credEq st1 st2) (id : Int) :
    (GetAccountByID st1 id = .error "account not found" ∧
      GetAccountByID st2 id = .error "account not found") ∨
    (∃ a b, GetAccountByID st1 id = .ok a ∧ GetAccountByID st2 id = .ok b ∧
      credEq a b) := by
  rcases forall2_find_credEq id hrel with ⟨h1, h2⟩ | ⟨a, b, h1, h2, hab⟩
  · left
    constructor
    · unfold GetAccountByID
      rw [h1]
    · unfold GetAccountByID
      rw [h2]
  · right
    refine ⟨a, b, ?_, ?_, hab⟩
    · unfold GetAccountByID
      rw [h1]
    · unfold GetAccountByID
      rw [h2]

/-- Existence of a record with a given id is credential-blind. -/
theorem forall2_any_id {st1 st2 : List Account}
    (hrel : List.Forall₂ credEq st1 st2) (id : Int) :
    st1.any (fun a => a.ID == id) = st2.any (fun a => a.ID == id) := by
  induction hrel with
  | nil => rfl
  | cons hab htail ih =>
    rename_i a b l1 l2
    simp [List.any_cons, ih, hab.1]

/-- Serializing credential-equal stores gives identical JSON lists. -/
theorem forall2_map_marshal {st1 st2 : List Account}
    (hrel : List.Forall₂ credEq st1 st2) :
    st1.map marshalAccount = st2.map marshalAccount := by
  induction hrel with
  | nil => rfl
  | cons hab htail ih =>
    simp [ih, credEq_marshal hab]

/-- The Access Guard's decision is credential-blind: it reads only the
looked-up account's number. -/
theorem withJWTAuth_credEq {st1 st2 : List Account} (secret : String)
    (now : Int) (r : Request) (hrel : List.Forall₂ credEq st1 st2) :
    withJWTAuth st1 secret now r = withJWTAuth st2 secret now r := by
  cases hv : validateJWT secret now (headerGet r) with
  | error e =>
    unfold withJWTAuth
    rw [hv]
  | ok pt =>
    have hval := (validateJWT_ok_inv secret now _ pt hv).2.2.2
    unfold withJWTAuth
    rw [hv]
    cases hi : getID r with
    | error e => simp [hval, hi]
    | ok i =>
      rcases getAccountByID_credEq hrel i with ⟨h1, h2⟩ | ⟨a, b, h1, h2, hab⟩
      · simp [hval, hi, h1, h2]
      · cases hcl : lookupClaim pt.claims "accountNumber" with
        | none => simp [hval, hi, h1, h2, hcl]
        | some v =>
          cases v with
          | num n =>
            by_cases hne : a.Number = n
            · have hbn : b.Number = n := by
                rw [← hab.2.2.2.1]
                exact hne
              simp [hval, hi, h1, h2, hcl, hne, hbn]
            · have hbn : ¬ b.Number = n := by
                rw [← hab.2.2.2.1]
                exact hne
              simp [hval, hi, h1, h2, hcl, hne, hbn]
          | str s => simp [hval, hi, h1, h2, hcl]
          | boolean b2 => simp [hval, hi, h1, h2, hcl]
          | null => simp [hval, hi, h1, h2, hcl]

/-- `runHandler` sends equal handler results to equal outcomes. -/
theorem runHandler_fst {h1 h2 : HandlerResult} (he : h1.1 = h2.1) :
    (runHandler h1).1 = (runHandler h2).1 := by
  obtain ⟨r1, s1⟩ := h1
  obtain ⟨r2, s2⟩ := h2
  simp only at he
  subst he
  cases r1 <;> rfl

/-- The fetch-by-id / delete handler's response is credential-blind. -/
theorem handleGetAccountByID_credEq {st1 st2 : List Account} (r : Request)
    (hrel : List.Forall₂ credEq st1 st2) :
    (handleGetAccountByID st1 r).1 = (handleGetAccountByID st2 r).1 := by
  by_cases hm : r.method = "GET"
  · cases hi : getID r with
    | error e => simp [handleGetAccountByID, hm, hi]
    | ok i =>
      rcases getAccountByID_credEq hrel i with ⟨h1, h2⟩ | ⟨a, b, h1, h2, hab⟩
      · simp [handleGetAccountByID, hm, hi, h1, h2]
      · simp [handleGetAccountByID, hm, hi, h1, h2, credEq_marshal hab]
  · by_cases hd : r.method = "DELETE"
    · cases hi : getID r with
      | error e =>
        simp [handleGetAccountByID, handleDeleteAccount, hm, hd, hi]
      | ok i =>
        have hany := forall2_any_id hrel i
        by_cases hex : st1.any (fun a => a.ID == i) = true
        · have hex2 : st2.any (fun a => a.ID == i) = true := by
            rw [← hany]
            exact hex
          simp [handleGetAccountByID, handleDeleteAccount, DeleteAccount,
            hm, hd, hi, hex, hex2]
        · have hex2 : ¬ st2.any (fun a => a.ID == i) = true := by
            rw [← hany]
            exact hex
          simp [handleGetAccountByID, handleDeleteAccount, DeleteAccount,
            hm, hd, hi, hex, hex2]
    · simp [handleGetAccountByID, hm, hd]

end GoBank

namespace GoBank

/-- C3 counterexample: a request to POST `/account` carrying no token at all
— the route `Run` registers without the JWT middleware — creates, persists
and returns an account record, so the create operation is not gated by
token possession. -/
theorem create_ungated_counterexample :
    reqCreateNoTok.token = none ∧
    (serve demoEnv [] reqCreateNoTok).2 =
      [{ ID := 0, FirstName := "a", LastName := "b", Number := 123,
         EncryptedPassword := generateFromPassword 10 3 "hunter2",
         Balance := 0, CreatedAt := 0 }] ∧
    (serve demoEnv [] reqCreateNoTok).1 =
      .respond 200 (.account
        { id := 0, firstName := "a", lastName := "b", number := 123,
          balance := 0, createdAt := 0 }) :=
  ⟨rfl, rfl, rfl⟩

/-- C3 amended: only the `/account/{id}` operations (fetch-by-id, delete)
are gated by token possession — a request whose token fails validation is
denied and leaves the store untouched — while the create and list
operations on `/account` execute with no token at all: a tokenless create
request persists and returns a record. -/
theorem gated_operations (env : Env) (st : List Account) (r : Request)
    (idv : String) (e : JWTError)
    (hpath : r.path = .accountID idv)
    (hbad : validateJWT env.secret env.now (headerGet r) = .error e) :
    serve env st r = (.respond 403 (.apiError "permission denied"), st) ∧
    ∀ c : CreateAccountRequest, ∀ st' : List Account, ∃ a : Account,
      NewAccount env.bcryptSalt env.randN env.now
          c.firstName c.lastName c.password = .ok a ∧
      serve env st' ⟨"POST", .account, none, some (encodeCreateAccountRequest c)⟩ =
        (.respond 200 (.account (marshalAccount a)), CreateAccount st' a) := by
  constructor
  · have hW : withJWTAuth st env.secret env.now r = permissionDeniedOut := by
      unfold withJWTAuth
      rw [hbad]
    rw [serve_accountID env st r idv hpath, hW]
    rfl
  · intro c st'
    refine ⟨_, rfl, ?_⟩
    rfl

/-- Witness for C3's amended statement: a tokenless request to the guarded
route `/account/{id}` is denied and deletes nothing. -/
theorem gated_operations_witness :
    serve demoEnv demoStore reqNoTok =
      (.respond 403 (.apiError "permission denied"), demoStore) :=
  (gated_operations demoEnv demoStore reqNoTok "1" .malformed rfl rfl).1

/-- C9: the hashed credential is never serialized outward — the account
handlers (fetch by id, create, list) produce identical responses over any
two stores whose records differ only in their `EncryptedPassword` fields,
and the serialized account shape is itself credential-blind. -/
theorem credential_never_serialized (env : Env) (st1 st2 : List Account)
    (r : Request)
    (hrel : List.Forall₂ credEq st1 st2)
    (hpath : r.path = .account ∨ ∃ s, r.path = .accountID s) :
    (serve env st1 r).1 = (serve env st2 r).1 ∧
    ∀ a b : Account, credEq a b → marshalAccount a = marshalAccount b := by
  refine ⟨?_, fun a b hab => credEq_marshal hab⟩
  rcases hpath with hp | ⟨s, hp⟩
  · rw [serve_account env st1 r hp, serve_account env st2 r hp]
    by_cases hm : r.method = "GET"
    · apply runHandler_fst
      simp [handleAccount, hm, handleGetAccount, GetAccounts,
        forall2_map_marshal hrel]
    · by_cases hm2 : r.method = "POST"
      · apply runHandler_fst
        cases hd : decodeCreateAccountRequest r.body with
        | error e2 => simp [handleAccount, hm, hm2, handleCreateAccount, hd]
        | ok c => simp [handleAccount, hm, hm2, handleCreateAccount, hd, NewAccount]
      · apply runHandler_fst
        simp [handleAccount, hm, hm2]
  · rw [serve_accountID env st1 r s hp, serve_accountID env st2 r s hp,
      withJWTAuth_credEq env.secret env.now r hrel]
    cases hW : withJWTAuth st2 env.secret env.now r with
    | respond status body => rfl
    | panicked => rfl
    | delegated r2 =>
      exact runHandler_fst (handleGetAccountByID_credEq r2 hrel)

/-- Witness for C9: a fetch of account id 1 returns the same response over
the store holding A and over the store holding A with a different stored
credential. -/
theorem credential_never_serialized_witness :
    (serve demoEnv [accA] reqA).1 = (serve demoEnv [accA'] reqA).1 :=
  (credential_never_serialized demoEnv [accA] [accA'] reqA
    (List.Forall₂.cons ⟨rfl, rfl, rfl, rfl, rfl, rfl⟩ List.Forall₂.nil)
    (Or.inr ⟨"1", rfl⟩)).1

end GoBank
